import Mathlib

/-!
# Package log: levels, sink hooks and the global logger

A shallow embedding of the Go package (level.go, hooks.go, interface.go,
logger.go) together with the few pieces of its collaborators that decide the
behaviour of the package: the level constants, level names and level parser of
the logrus library, and the call log of an io.Writer.

Conventions of the embedding

* Go strings are Lean strings (sequences of Unicode scalar values), so byte
  sequences that are not valid UTF-8 are outside the embedding.
* `uint32` levels are natural numbers; no arithmetic is performed on them.
* A map with string keys is a lookup function into `Option`.
* A Go panic (a nil pointer dereference, or the panic of Setup) is the error
  result of an operation on the global state.
* Locks are not modelled: every operation runs alone.
-/

/-! ## The standard library pieces used by the level parser -/

namespace strings

/-- Lower-casing of one rune as done by unicode.ToLower: runes below 128 go
through the ASCII rule, every other rune goes through the Unicode case table,
which is the parameter `tbl`. -/
def toLowerRune (tbl : Char → Char) (c : Char) : Char :=
  if c.toNat < 128 then c.toLower else tbl c

/-- Rune-wise lower-casing of a string, strings.ToLower. -/
def ToLower (tbl : Char → Char) (s : String) : String :=
  String.mk (s.data.map (toLowerRune tbl))

end strings

/-! ## The logrus library: levels -/

namespace logrus

/-- The logrus level type, a uint32. -/
abbrev Level := Nat

abbrev PanicLevel : Level := 0
abbrev FatalLevel : Level := 1
abbrev ErrorLevel : Level := 2
abbrev WarnLevel : Level := 3
abbrev InfoLevel : Level := 4
abbrev DebugLevel : Level := 5
abbrev TraceLevel : Level := 6

/-- Name of a logrus level, Level.String of logrus ("unknown" for a number that
is no level). -/
def Level.String (level : Level) : String :=
  if level = TraceLevel then "trace"
  else if level = DebugLevel then "debug"
  else if level = InfoLevel then "info"
  else if level = WarnLevel then "warning"
  else if level = ErrorLevel then "error"
  else if level = FatalLevel then "fatal"
  else if level = PanicLevel then "panic"
  else "unknown"

/-- The level parser of logrus: the input is lower-cased first, then compared
with the seven level names ("warn" and "warning" both name the warn level).
The result is the level and the error (`none` is a nil error). -/
def ParseLevel (tbl : Char → Char) (lvl : String) : Level × Option String :=
  let l := strings.ToLower tbl lvl
  if l = "panic" then (PanicLevel, none)
  else if l = "fatal" then (FatalLevel, none)
  else if l = "error" then (ErrorLevel, none)
  else if l = "warn" ∨ l = "warning" then (WarnLevel, none)
  else if l = "info" then (InfoLevel, none)
  else if l = "debug" then (DebugLevel, none)
  else if l = "trace" then (TraceLevel, none)
  else (0, some ("not a valid logrus Level: " ++ lvl.quote))

end logrus

/-! ## level.go -/

namespace log

/-- Level represents a distinct logging level (a uint32). -/
abbrev Level := Nat

abbrev LevelOff : Level := 0
abbrev LevelError : Level := 1
abbrev LevelWarn : Level := 2
abbrev LevelInfo : Level := 3
abbrev LevelDebug : Level := 4

/-- The five level constants the package declares. -/
def definedLevels : List Level :=
  [LevelOff, LevelError, LevelWarn, LevelInfo, LevelDebug]

/-- The four levels an entry can be finalized at. -/
def entryLevels : List Level :=
  [LevelError, LevelWarn, LevelInfo, LevelDebug]

/-- Conversion to the logrus level; everything that is no real level maps to
the panic level, the lowest level available, which stands for off. -/
def Level.toLogrus (level : Level) : logrus.Level :=
  if level = LevelDebug then logrus.DebugLevel
  else if level = LevelInfo then logrus.InfoLevel
  else if level = LevelWarn then logrus.WarnLevel
  else if level = LevelError then logrus.ErrorLevel
  else logrus.PanicLevel

/-- Name of a level. -/
def Level.String (level : Level) : String :=
  if level = LevelOff then "off"
  else logrus.Level.String (Level.toLogrus level)

/-- Conversion from the logrus level. -/
def fromLogrus (level : logrus.Level) : Level :=
  if level = logrus.DebugLevel then LevelDebug
  else if level = logrus.InfoLevel then LevelInfo
  else if level = logrus.WarnLevel then LevelWarn
  else if level = logrus.ErrorLevel then LevelError
  else LevelOff

/-- The error text built by fmt.Errorf in ParseLevel. -/
def unsupportedLevel (level : String) : String :=
  "unsupported log level: \x27" ++ level ++ "\x27"

/-- ParseLevel converts the supplied string to a valid Level value. The
result is the level and the error (`none` is a nil error). -/
def ParseLevel (tbl : Char → Char) (level : String) : Level × Option String :=
  if level = "off" then (LevelOff, none)
  else
    let (result, err) := logrus.ParseLevel tbl level
    if err ≠ none then (LevelOff, some (unsupportedLevel level))
    else if result = logrus.DebugLevel then (LevelDebug, none)
    else if result = logrus.InfoLevel then (LevelInfo, none)
    else if result = logrus.WarnLevel then (LevelWarn, none)
    else if result = logrus.ErrorLevel then (LevelError, none)
    else (LevelOff, some (unsupportedLevel level))

end log

/-! ## Values, fields and entries (the logrus data the hooks receive) -/

namespace logrus

/-- A value stored in a field (a Go interface value), classified by what the
type switches of the package can tell apart: whether it implements error,
whether it implements fmt.Stringer, whether it is a string. -/
inductive Value where
  /-- implements error only; the payload is the result of Error() -/
  | err (text : String)
  /-- implements fmt.Stringer only; the payload is the result of String() -/
  | stringer (text : String)
  /-- implements both error and fmt.Stringer -/
  | errStringer (errText : String) (strText : String)
  /-- a value of type string -/
  | str (s : String)
  /-- a value of a function type or of a pointer-to-function type -/
  | func
  /-- a value of any other type, such as an integer -/
  | other (n : Int)
  /-- the nil interface value -/
  | null
  deriving DecidableEq, Repr

/-- Fields of an entry: map[string]interface{}. -/
abbrev Fields := String → Option Value

/-- The empty map. -/
def Fields.empty : Fields := fun _ => none

/-- Assignment `m[k] = v`. -/
def Fields.set (m : Fields) (k : String) (v : Value) : Fields :=
  fun x => if x = k then some v else m x

/-- Builtin `delete(m, k)`. -/
def Fields.delete (m : Fields) (k : String) : Fields :=
  fun x => if x = k then none else m x

/-- A fresh map built by the two copy loops of Entry.WithFields: the pairs of
`old`, overwritten by the pairs of `fields`, except that a pair of `fields`
whose value is a function or a pointer to a function is refused and leaves the
key as `old` has it. -/
def Fields.merge (old fields : Fields) : Fields :=
  fun x => match fields x with
    | some Value.func => old x
    | some v => some v
    | none => old x

/-- The part of a logrus entry the package reads and writes: level, message
and data. -/
structure Entry where
  Level : Level
  Message : String
  Data : Fields

/-- The entry a logger hands out before any field is attached. -/
def Entry.new : Entry := { Level := PanicLevel, Message := "", Data := Fields.empty }

/-- Entry.WithFields: a new entry whose data is a fresh merged map. The text
the entry records about refused fields is not part of the embedding (it
depends on the iteration order of the map). -/
def Entry.WithFields (entry : Entry) (fields : Fields) : Entry :=
  { Level := PanicLevel, Message := "", Data := Fields.merge entry.Data fields }

end logrus

/-! ## hooks.go -/

namespace io

/-- An io.Writer seen from outside: the chunks its Write method has received so
far, in order, and the error Write answers for a chunk (`none` is nil). -/
structure Writer where
  received : List String
  failure : String → Option String

/-- One call of Write. -/
def Writer.Write (w : Writer) (p : String) : Writer × Option String :=
  ({ w with received := w.received ++ [p] }, w.failure p)

end io

namespace log

open logrus (Entry Fields Value)

/-- The hook type of hooks.go. The formatter answers bytes or an error. -/
structure levelWriterHook where
  level : logrus.Level
  writer : io.Writer
  formatter : Entry → Except String String
  showErrorStack : Bool

/-- Reads the error text and the stack text out of the entry data. -/
def levelWriterHook.extractError (_hook : levelWriterHook) (entry : Entry) : String × String :=
  let errMsg :=
    match entry.Data "error" with
    | some (Value.err t) => t
    | some (Value.errStringer t _) => t
    | some (Value.stringer t) => t
    | some (Value.str v) => v
    | _ => ""
  let stack :=
    match entry.Data "stack" with
    | some (Value.str v) => v
    | _ => ""
  (errMsg, stack)

/-- The block of Fire that runs for an entry of the error level (from the
call of extractError to the registration of the deferred function). The result
is the entry as the block leaves it and the stack the deferred function will
put back (`none` when no function was deferred). -/
def levelWriterHook.errorBlock (hook : levelWriterHook) (entry : Entry) : Entry × Option String :=
  let errMsg := (hook.extractError entry).1
  let stack := (hook.extractError entry).2
  -- replace the error struct with the actual message
  let e1 : Entry :=
    if errMsg ≠ "" then { entry with Data := entry.Data.set "error" (Value.str errMsg) } else entry
  -- fill the entry message with a default value
  let e2 : Entry :=
    if e1.Message = "" ∧ errMsg ≠ "" then { e1 with Message := errMsg } else e1
  -- avoid showing the same thing twice
  let e3 : Entry :=
    if e2.Message = errMsg then { e2 with Data := e2.Data.delete "error" } else e2
  -- if the hook does not print stacks, the information is removed temporarily
  if stack ≠ "" ∧ hook.showErrorStack = false then
    ({ e3 with Data := e3.Data.delete "stack" }, some stack)
  else
    (e3, none)

/-- The deferred function of Fire, run when Fire returns. -/
def runDeferred (restore : Option String) (entry : Entry) : Entry :=
  match restore with
  | some stack => { entry with Data := entry.Data.set "stack" (Value.str stack) }
  | none => entry

/-- What one call of Fire does: the error it returns, the entry as it is left
behind, the hook (its writer may have received a chunk), and the entry as it
stood when it was handed to the formatter (`none` when Format was not called). -/
structure FireResult where
  err : Option String
  entry : Entry
  hook : levelWriterHook
  formatted : Option Entry

/-- The entry as it stands when Fire reaches the call of Format, and the stack
the deferred function will put back: the error block runs for entries of the
error level only. -/
def levelWriterHook.beforeFormat (hook : levelWriterHook) (entry : Entry) :
    Entry × Option String :=
  if entry.Level = logrus.ErrorLevel then hook.errorBlock entry else (entry, none)

/-- Fire of the hook. -/
def levelWriterHook.Fire (hook : levelWriterHook) (entry : Entry) : FireResult :=
  if entry.Level > hook.level then
    { err := none, entry := entry, hook := hook, formatted := none }
  else
    let p := hook.beforeFormat entry
    match hook.formatter p.1 with
    | Except.error err =>
      { err := some err, entry := runDeferred p.2 p.1, hook := hook, formatted := some p.1 }
    | Except.ok msg =>
      let w := hook.writer.Write msg
      { err := w.2, entry := runDeferred p.2 p.1, hook := { hook with writer := w.1 },
        formatted := some p.1 }

end log

/-! ## logger.go: the global state -/

namespace logrus

/-- Where the logger itself writes a finished entry. -/
inductive Out where
  | stderr
  | discard
  deriving DecidableEq, Repr

/-- The hooks registered in the logger are pointers to the two global hook
variables of the package. -/
inductive HookRef where
  | file
  | stdout
  deriving DecidableEq, Repr

/-- The logger: its own output, its own level and the hooks in the order they
were added (every hook of the package registers for all levels). -/
structure Logger where
  Out : Out
  Level : logrus.Level
  Hooks : List HookRef

/-- The logger built by logrus.New. -/
def New : Logger := { Out := Out.stderr, Level := InfoLevel, Hooks := [] }

/-- Logger.AddHook. -/
def Logger.AddHook (logger : Logger) (hook : HookRef) : Logger :=
  { logger with Hooks := logger.Hooks ++ [hook] }

/-- Logger.SetLevel. -/
def Logger.SetLevel (logger : Logger) (level : logrus.Level) : Logger :=
  { logger with Level := level }

end logrus

namespace log

open logrus (Entry Fields Value)

/-- The package variables of logger.go (logger, fileHook, stdoutHook; a nil
pointer is `none`) and the directories that exist on disk. -/
structure State where
  logger : Option logrus.Logger
  fileHook : Option levelWriterHook
  stdoutHook : Option levelWriterHook
  dirs : List String

/-- The state of a freshly started process. -/
def State.initial (dirs : List String) : State :=
  { logger := none, fileHook := none, stdoutHook := none, dirs := dirs }

/-- The collaborators Setup calls: directory creation and path joining of the
fs package, the constructor of the rotating writer (file name pattern, link
name, maximum age and rotation time), the two logrus formatters and the
standard output stream. -/
structure Env where
  MkdirAll : String → List String → Except String (List String)
  Join : String → String → String
  rotatelogsNew : String → String → Int → Int → Except String io.Writer
  JSONFormatter : Entry → Except String String
  TextFormatter : Entry → Except String String
  Stdout : io.Writer

/-- The panic value of a nil pointer dereference. -/
def nilDeref : String := "invalid memory address or nil pointer dereference"

/-- A count of minutes as time.Duration: int64 nanoseconds, wrapping. -/
def minutes (n : Int) : Int :=
  (n * 60000000000 + 2 ^ 63) % 2 ^ 64 - 2 ^ 63

/-- Setup configures and starts a new global logger instance. If the global
logger is already configured, the call is ignored. An error result is a panic. -/
def Setup (env : Env) (logPath : String) (logsufix : String) (purgeMinutes rotateMinutes : Int)
    (s : State) : Except String State :=
  if s.logger.isSome then Except.ok s
  else
    match env.MkdirAll logPath s.dirs with
    | Except.error err => Except.error err
    | Except.ok dirs =>
      let path := env.Join logPath (logsufix ++ ".log")
      match env.rotatelogsNew
          (path.replace (logsufix ++ ".log") ("%Y%m%d%H%M-" ++ logsufix ++ ".json"))
          path (minutes purgeMinutes) (minutes rotateMinutes) with
      | Except.error err => Except.error err
      | Except.ok rotate =>
        let logger := logrus.New
        -- Hooks to control where/what will be logged on
        let fileHook : levelWriterHook :=
          { level := logrus.InfoLevel, writer := rotate, formatter := env.JSONFormatter,
            showErrorStack := true }
        let stdoutHook : levelWriterHook :=
          { level := logrus.InfoLevel, writer := env.Stdout, formatter := env.TextFormatter,
            showErrorStack := false }
        let logger := logger.AddHook logrus.HookRef.file
        let logger := logger.AddHook logrus.HookRef.stdout
        let logger := { logger with Out := logrus.Out.discard }
        let logger := logger.SetLevel logrus.DebugLevel
        Except.ok { logger := some logger, fileHook := some fileHook,
                    stdoutHook := some stdoutHook, dirs := dirs }

/-- TearDown disables the global logger. -/
def TearDown (s : State) : State :=
  { s with logger := none, fileHook := none, stdoutHook := none }

/-- GetStdoutLevel returns the current log level of stdout. -/
def GetStdoutLevel (s : State) : Except String Level :=
  match s.stdoutHook with
  | none => Except.error nilDeref
  | some hook => Except.ok (fromLogrus hook.level)

/-- SetStdoutLevel configures the log level used on the stdout output. -/
def SetStdoutLevel (level : Level) (s : State) : Except String State :=
  match s.stdoutHook with
  | none => Except.error nilDeref
  | some hook => Except.ok { s with stdoutHook := some { hook with level := level.toLogrus } }

/-- SetFileLevel configures the log level used on the file output. -/
def SetFileLevel (level : Level) (s : State) : Except String State :=
  match s.fileHook with
  | none => Except.error nilDeref
  | some hook => Except.ok { s with fileHook := some { hook with level := level.toLogrus } }

/-- RedirectStdout redirects the stdout logger output to the supplied writer. -/
def RedirectStdout (target : io.Writer) (s : State) : Except String State :=
  match s.stdoutHook with
  | none => Except.error nilDeref
  | some hook => Except.ok { s with stdoutHook := some { hook with writer := target } }

/-- The hook a registered pointer refers to. -/
def State.hook (s : State) : logrus.HookRef → Option levelWriterHook
  | logrus.HookRef.file => s.fileHook
  | logrus.HookRef.stdout => s.stdoutHook

/-- Stores the hook a registered pointer refers to. -/
def State.setHook (s : State) (r : logrus.HookRef) (h : levelWriterHook) : State :=
  match r with
  | logrus.HookRef.file => { s with fileHook := some h }
  | logrus.HookRef.stdout => { s with stdoutHook := some h }

/-- LevelHooks.Fire of logrus: the hooks are fired in the order they were
added, on the same entry, and the first error ends the loop. The result is the
state (the writers may have advanced), the entry as the hooks leave it, and the
error. -/
def fireHooks : List logrus.HookRef → State → Entry → Except String (State × Entry × Option String)
  | [], s, entry => Except.ok (s, entry, none)
  | r :: rs, s, entry =>
    match s.hook r with
    | none => Except.error nilDeref
    | some hook =>
      let res := hook.Fire entry
      match res.err with
      | some err => Except.ok (s.setHook r res.hook, res.entry, some err)
      | none => fireHooks rs (s.setHook r res.hook) res.entry

/-- The logrus entry the hooks receive when an entry is finalized: the entry
with its level and message filled in. -/
def dispatched (inner : logrus.Entry) (level : logrus.Level) (message : String) : logrus.Entry :=
  { inner with Level := level, Message := message }

/-- Entry.Log of logrus, as far as the two sinks are concerned: when the level
is enabled in the logger, the entry gets its level and message and the hooks
are fired (an error of a hook is reported on stderr only; the
logger then writes the entry to its own output, which Setup set to discard).
A nil logger is a nil pointer dereference. -/
def logEntry (s : State) (entry : Entry) (level : logrus.Level) (message : String) :
    Except String State :=
  match s.logger with
  | none => Except.error nilDeref
  | some logger =>
    if logger.Level ≥ level then
      match fireHooks logger.Hooks s (dispatched entry level message) with
      | Except.error p => Except.error p
      | Except.ok (s1, _, _) => Except.ok s1
    else Except.ok s

/-- Logger.WithFields of logrus: a fresh entry of the logger with the fields
attached. A nil logger is a nil pointer dereference. -/
def loggerWithFields (s : State) (fields : Fields) : Except String Entry :=
  match s.logger with
  | none => Except.error nilDeref
  | some _ => Except.ok (logrus.Entry.new.WithFields fields)

end log

/-! ## Entries and errors (entry.go) -/

namespace log

open logrus (Fields Value)

/-- A Go error value: the text Error() returns and the stack trace embedded in
the error instance, if it carries one. -/
structure GoError where
  text : String
  trace : Option String

/-- Modelled from the spec: the error extractor of entry.go, which is not among
the sources. The message is the text of the error; the stack is the trace
embedded in the error if it carries one, else the trace captured at the
extraction call site, which is the parameter `here`. -/
def extract (here : String) (err : GoError) : String × String :=
  (err.text, match err.trace with
    | some t => t
    | none => here)

/-- Modelled from the spec: fieldsFromError of entry.go, which is not among the
sources. The fields are "error" with the extracted message and "stack" with
the extracted stack, the latter omitted when it is empty. -/
def fieldsFromError (here : String) (err : GoError) : Fields :=
  let (message, stack) := extract here err
  let fields := Fields.empty.set "error" (Value.str message)
  if stack = "" then fields else fields.set "stack" (Value.str stack)

/-- An entry that can be finalized at the debug, info, warn or error level. -/
structure Entry where
  inner : logrus.Entry

/-- An entry locked in the error state. -/
structure ErrorEntry where
  inner : logrus.Entry

/-- Modelled from the spec: Entry.With of entry.go, which is not among the
sources. The fields are merged into a copy of the current field set. -/
def Entry.With (e : Entry) (fields : Fields) : Entry :=
  { inner := e.inner.WithFields fields }

/-- Modelled from the spec: Entry.WithError of entry.go, which is not among the
sources. The extracted error and stack are merged into the field set and the
entry becomes error-locked. -/
def Entry.WithError (e : Entry) (here : String) (err : GoError) : ErrorEntry :=
  { inner := e.inner.WithFields (fieldsFromError here err) }

/-- Modelled from the spec: ErrorEntry.With of entry.go, which is not among the
sources. Fields still merge in and the entry stays error-locked. -/
def ErrorEntry.With (e : ErrorEntry) (fields : Fields) : ErrorEntry :=
  { inner := e.inner.WithFields fields }

/-- Modelled from the spec: ErrorEntry.WithError of entry.go, which is not
among the sources. The new extraction overwrites "error" and "stack". -/
def ErrorEntry.WithError (e : ErrorEntry) (here : String) (err : GoError) : ErrorEntry :=
  { inner := e.inner.WithFields (fieldsFromError here err) }

/-- Modelled from the spec: Entry.Debug of entry.go, which is not among the
sources. Level, message and fields are dispatched to the global logger. -/
def Entry.Debug (e : Entry) (message : String) (s : State) : Except String State :=
  logEntry s e.inner logrus.DebugLevel message

/-- Modelled from the spec: Entry.Info of entry.go. -/
def Entry.Info (e : Entry) (message : String) (s : State) : Except String State :=
  logEntry s e.inner logrus.InfoLevel message

/-- Modelled from the spec: Entry.Warn of entry.go. -/
def Entry.Warn (e : Entry) (message : String) (s : State) : Except String State :=
  logEntry s e.inner logrus.WarnLevel message

/-- Modelled from the spec: ErrorEntry.Error of entry.go, which is not among
the sources. The error level, the message and the fields are dispatched. -/
def ErrorEntry.Error (e : ErrorEntry) (message : String) (s : State) : Except String State :=
  logEntry s e.inner logrus.ErrorLevel message

/-- Modelled from the spec: Entry.Error of entry.go, which is not among the
sources: the same as WithError of the error followed by Error of the empty
message. -/
def Entry.Error (e : Entry) (here : String) (err : GoError) (s : State) : Except String State :=
  (e.WithError here err).Error "" s

/-! ## interface.go -/

/-- With returns a new log entry with the supplied key-value fields. -/
def With (fields : Fields) (s : State) : Except String Entry :=
  match loggerWithFields s fields with
  | Except.error p => Except.error p
  | Except.ok inner => Except.ok { inner := inner }

/-- WithError returns a new log entry for error. -/
def WithError (here : String) (err : GoError) (s : State) : Except String ErrorEntry :=
  match loggerWithFields s (fieldsFromError here err) with
  | Except.error p => Except.error p
  | Except.ok inner => Except.ok { inner := inner }

/-- PrintError registers the supplied error on the logger and prints the
user-friendly message to stdout, but only if the stdout logger is turned off. -/
def PrintError (here : String) (err : GoError) (message : String) (s : State) :
    Except String State :=
  match loggerWithFields s (fieldsFromError here err) with
  | Except.error p => Except.error p
  | Except.ok entry =>
    match logEntry s entry logrus.ErrorLevel "" with
    | Except.error p => Except.error p
    | Except.ok s1 =>
      match s1.stdoutHook with
      | none => Except.error nilDeref
      | some hook =>
        if hook.level = LevelOff.toLogrus then
          Except.ok { s1 with
            stdoutHook := some { hook with writer := (hook.writer.Write (message ++ "\n")).1 } }
        else Except.ok s1

/-- Debug registers a log entry in the debug level. -/
def Debug (message : String) (s : State) : Except String State :=
  logEntry s logrus.Entry.new logrus.DebugLevel message

/-- Info registers a log entry in the info level. -/
def Info (message : String) (s : State) : Except String State :=
  logEntry s logrus.Entry.new logrus.InfoLevel message

/-- Warn registers a log entry in the warn level. -/
def Warn (message : String) (s : State) : Except String State :=
  logEntry s logrus.Entry.new logrus.WarnLevel message

/-- Error registers a log entry in the error level. -/
def Error (here : String) (err : GoError) (s : State) : Except String State :=
  match loggerWithFields s (fieldsFromError here err) with
  | Except.error p => Except.error p
  | Except.ok entry => logEntry s entry logrus.ErrorLevel ""

end log

/-! ## Concrete data used to evaluate the definitions -/

namespace log

open logrus (Fields Value)

/-- A writer that has received nothing and never fails. -/
def sampleWriter : io.Writer := { received := [], failure := fun _ => none }

/-- A formatter that renders the message only. -/
def sampleFormatter : logrus.Entry → Except String String := fun e => Except.ok e.Message

/-- A console-like hook at the warn level that hides stacks. -/
def sampleConsoleHook : levelWriterHook :=
  { level := LevelWarn.toLogrus, writer := sampleWriter, formatter := sampleFormatter,
    showErrorStack := false }

/-- A file-like hook at the info level that shows stacks. -/
def sampleFileHook : levelWriterHook :=
  { level := LevelInfo.toLogrus, writer := sampleWriter, formatter := sampleFormatter,
    showErrorStack := true }

/-- An error-level entry with message "oops", error text "boom" and a stack. -/
def sampleErrorEntry : logrus.Entry :=
  { Level := logrus.ErrorLevel, Message := "oops",
    Data := (Fields.empty.set "error" (Value.str "boom")).set "stack" (Value.str "main.go:1") }

/-- An error-level entry whose "stack" field holds the integer 42. -/
def intStackEntry : logrus.Entry :=
  { Level := logrus.ErrorLevel, Message := "oops",
    Data := (Fields.empty.set "error" (Value.str "boom")).set "stack" (Value.other 42) }

/-- The logger as Setup leaves it. -/
def sampleLogger : logrus.Logger :=
  { Out := logrus.Out.discard, Level := logrus.DebugLevel,
    Hooks := [logrus.HookRef.file, logrus.HookRef.stdout] }

/-- An active global state. -/
def sampleState : State :=
  { logger := some sampleLogger, fileHook := some sampleFileHook,
    stdoutHook := some sampleConsoleHook, dirs := ["/var/log/app"] }

/-- The console-like sample hook switched off. -/
def sampleOffHook : levelWriterHook :=
  { sampleConsoleHook with level := LevelOff.toLogrus }

/-- An active global state whose console level is off. -/
def sampleOffState : State :=
  { sampleState with stdoutHook := some sampleOffHook }

/-- An error created without a stack trace. -/
def sampleError : GoError := { text := "some error", trace := none }

/-- Collaborators whose directory creation and writer construction fail
whenever they are called. -/
def failingEnv : Env :=
  { MkdirAll := fun _ _ => Except.error "mkdir failed", Join := fun a b => a ++ "/" ++ b,
    rotatelogsNew := fun _ _ _ _ => Except.error "rotatelogs failed",
    JSONFormatter := sampleFormatter, TextFormatter := sampleFormatter,
    Stdout := sampleWriter }

/-- A chain of With calls: the entry With(f1).With(f2)...With(fn) for the
list f1, ..., fn applied to the entry it starts from. -/
def Entry.WithAll (e : Entry) (fs : List Fields) : Entry :=
  fs.foldl Entry.With e

/-- The binding last-write-wins asks for: the value of the last map of the
list that contains the key, and none when no map contains it. -/
def lastWrite : List Fields → String → Option Value
  | [], _ => none
  | f :: fs, k =>
    match lastWrite fs k with
    | some v => some v
    | none => f k

/-- The field map with the single pair (k, v). -/
def single (k : String) (v : Value) : Fields := Fields.empty.set k v

/-- Collaborators that always succeed: the directory is added to the disk and
the rotating writer is a fresh writer. -/
def workingEnv : Env :=
  { MkdirAll := fun p dirs => Except.ok (p :: dirs), Join := fun a b => a ++ "/" ++ b,
    rotatelogsNew := fun _ _ _ _ => Except.ok sampleWriter,
    JSONFormatter := sampleFormatter, TextFormatter := sampleFormatter,
    Stdout := sampleWriter }

/-- A state after TearDown in which the hooks had been configured at other
levels before. -/
def sampleTornDown : State := TearDown sampleOffState

/-- A hook whose formatter always fails. -/
def failingFormatterHook : levelWriterHook :=
  { sampleFileHook with formatter := fun _ => Except.error "cannot format" }

/-- A hook whose writer always fails. -/
def failingWriterHook : levelWriterHook :=
  { sampleFileHook with
    writer := { received := [], failure := fun _ => some "disk full" } }

/-- The text an "error" value is read as: an error value contributes Error(),
a Stringer contributes String(), a value that is both is read as an error, a
string contributes itself, and any other value has no text. -/
def coercedText : Value → Option String
  | Value.err t => some t
  | Value.errStringer t _ => some t
  | Value.stringer t => some t
  | Value.str v => some v
  | Value.func => none
  | Value.other _ => none
  | Value.null => none

/-- An error-level entry with message "e1" whose "error" field holds a
Stringer that prints "something". -/
def stringerErrorEntry : logrus.Entry :=
  { Level := logrus.ErrorLevel, Message := "e1",
    Data := Fields.empty.set "error" (Value.stringer "something") }

/-- An error-level entry with the empty message whose "error" field holds the
integer 42. -/
def intErrorEntry : logrus.Entry :=
  { Level := logrus.ErrorLevel, Message := "",
    Data := Fields.empty.set "error" (Value.other 42) }

/-- The error block of Fire without its last step, the removal of the stack:
the entry after coercion, message fallback and duplicate suppression. -/
def levelWriterHook.errorRewrite (hook : levelWriterHook) (entry : logrus.Entry) :
    logrus.Entry :=
  let errMsg := (hook.extractError entry).1
  let e1 : logrus.Entry :=
    if errMsg ≠ "" then { entry with Data := entry.Data.set "error" (Value.str errMsg) } else entry
  let e2 : logrus.Entry :=
    if e1.Message = "" ∧ errMsg ≠ "" then { e1 with Message := errMsg } else e1
  if e2.Message = errMsg then { e2 with Data := e2.Data.delete "error" } else e2

/-- The binding of last-write-wins once refused values are left out: the
value of the last map of the list that binds the key to a value that is not a
function, and none when no map does. -/
def lastKept : List Fields → String → Option Value
  | [], _ => none
  | f :: fs, k =>
    match lastKept fs k with
    | some v => some v
    | none =>
      match f k with
      | some Value.func => none
      | some v => some v
      | none => none

/-- A field map with the pair (k, 1) and a function under the key "f". -/
def funcFields : Fields := (single "k" (Value.other 1)).set "f" Value.func

/-- The custom field port = 8080. -/
def portFields : Fields := single "port" (Value.other 8080)

/-- The state after the file hook and then the console hook fired on an entry:
the console hook fires on the entry as the file hook left it, and only when the
file hook returned nil. -/
def afterHooks (s : State) (fileH stdH : levelWriterHook) (d : logrus.Entry) : State :=
  { s with
    fileHook := some (fileH.Fire d).hook,
    stdoutHook := some
      (if (fileH.Fire d).err.isSome then stdH else (stdH.Fire (fileH.Fire d).entry).hook) }

/-- The entries allocated so far; the address of an entry is its position.
Each entry owns its field map, because WithFields builds a fresh map for every
entry it returns. -/
structure Heap where
  cells : List Entry

/-- Allocation `&Entry{...}`: the entry is stored at the next free address. -/
def Heap.alloc (h : Heap) (e : Entry) : Nat × Heap :=
  (h.cells.length, { cells := h.cells ++ [e] })

/-- With of interface.go with its result allocated on the heap. -/
def Heap.With (h : Heap) (fields : Fields) (s : State) : Except String (Nat × Heap) :=
  match log.With fields s with
  | Except.error p => Except.error p
  | Except.ok e => Except.ok (h.alloc e)

/-- Modelled from the spec: Entry.With of entry.go called on the entry at
address p, its result allocated on the heap. -/
def Heap.EntryWith (h : Heap) (p : Nat) (fields : Fields) : Except String (Nat × Heap) :=
  match h.cells[p]? with
  | none => Except.error nilDeref
  | some e => Except.ok (h.alloc (e.With fields))

end log

/-! ## Theorems -/

namespace log

open logrus (Fields Value)

/-- An entry less urgent than the hook level is dropped: Fire returns nil and
changes nothing. -/
theorem Fire_gated (hook : levelWriterHook) (entry : logrus.Entry)
    (h : entry.Level > hook.level) :
    hook.Fire entry = { err := none, entry := entry, hook := hook, formatted := none } := by
  simp [levelWriterHook.Fire, if_pos h]

/-- An entry that passes the gate is handed to the formatter as beforeFormat
leaves it. -/
theorem Fire_formatted (hook : levelWriterHook) (entry : logrus.Entry)
    (h : ¬ entry.Level > hook.level) :
    (hook.Fire entry).formatted = some (hook.beforeFormat entry).1 := by
  simp only [levelWriterHook.Fire, if_neg h]
  split <;> rfl

/-- For an entry that passes the gate the writer receives the formatted bytes,
and nothing when the formatter fails. -/
theorem Fire_received (hook : levelWriterHook) (entry : logrus.Entry)
    (h : ¬ entry.Level > hook.level) :
    (hook.Fire entry).hook.writer.received =
      match hook.formatter (hook.beforeFormat entry).1 with
      | Except.ok msg => hook.writer.received ++ [msg]
      | Except.error _ => hook.writer.received := by
  simp only [levelWriterHook.Fire, if_neg h]
  cases hf : hook.formatter (hook.beforeFormat entry).1 <;> simp [io.Writer.Write]

/-- C1, monotonic level gating. For an entry level E among error, warn, info,
debug and a hook level H among off, error, warn, info, debug (both converted
by toLogrus), Fire hands the entry to the formatter exactly when E ≤ H, and
then the writer receives the formatted bytes (nothing if the formatter fails);
when E ≤ H fails, Fire returns nil and leaves hook, writer and entry as they
were. A hook at the off level formats and writes no entry. -/
theorem Fire_level_gate (hook : levelWriterHook) (entry : logrus.Entry) (E H : Level)
    (hE : E ∈ entryLevels) (hH : H ∈ definedLevels)
    (hel : entry.Level = E.toLogrus) (hhl : hook.level = H.toLogrus) :
    ((hook.Fire entry).formatted.isSome = true ↔ E ≤ H) ∧
    (E ≤ H → ∃ e, (hook.Fire entry).formatted = some e ∧
      (hook.Fire entry).hook.writer.received =
        match hook.formatter e with
        | Except.ok msg => hook.writer.received ++ [msg]
        | Except.error _ => hook.writer.received) ∧
    (¬ E ≤ H → (hook.Fire entry).err = none ∧ (hook.Fire entry).hook = hook ∧
      (hook.Fire entry).formatted = none ∧ (hook.Fire entry).entry = entry) ∧
    (H = LevelOff → (hook.Fire entry).formatted = none ∧ (hook.Fire entry).hook = hook) := by
  have hgate : entry.Level > hook.level ↔ ¬ E ≤ H := by
    rw [hel, hhl]
    simp only [entryLevels, definedLevels, List.mem_cons, List.mem_singleton,
      List.mem_nil_iff, or_false] at hE hH
    rcases hE with rfl | rfl | rfl | rfl <;> rcases hH with rfl | rfl | rfl | rfl | rfl <;> decide
  by_cases h : E ≤ H
  · have hn : ¬ entry.Level > hook.level := fun hg => (hgate.mp hg) h
    have hoff : H ≠ LevelOff := by
      rintro rfl
      simp only [entryLevels, List.mem_cons, List.mem_singleton, List.mem_nil_iff,
        or_false] at hE
      rcases hE with rfl | rfl | rfl | rfl <;> exact absurd h (by decide)
    refine ⟨?_, fun _ => ⟨_, Fire_formatted hook entry hn, Fire_received hook entry hn⟩,
      fun hc => absurd h hc, fun hc => absurd hc hoff⟩
    simp [Fire_formatted hook entry hn, h]
  · have hg : entry.Level > hook.level := hgate.mpr h
    refine ⟨?_, fun hc => absurd hc h, fun _ => ?_, fun _ => ?_⟩ <;>
      simp [Fire_gated hook entry hg, h]

/-- Witness for C1: an error-level entry at the sample console hook, whose
level is warn. -/
theorem Fire_level_gate_witness :
    (LevelError ∈ entryLevels ∧ LevelWarn ∈ definedLevels) ∧
    ((sampleConsoleHook.Fire sampleErrorEntry).formatted.isSome = true ↔
      LevelError ≤ LevelWarn) :=
  ⟨⟨by decide, by decide⟩,
    (Fire_level_gate sampleConsoleHook sampleErrorEntry LevelError LevelWarn
      (by decide) (by decide) rfl rfl).1⟩

/-- C2 as stated fails: the upper-case string "INFO" is none of the six
strings, yet ParseLevel returns the info level with a nil error (the string is
ASCII, so the Unicode table is not consulted; the identity stands in for it). -/
theorem ParseLevel_upper_case_accepted :
    ParseLevel id "INFO" = (LevelInfo, none) ∧
    "INFO" ∉ ["off", "error", "warn", "warning", "info", "debug"] := by
  decide

/-- C2, amended. ParseLevel accepts "off" as written and otherwise decides on
the lower-cased string: "error", "warn", "warning", "info" and "debug" give
Error, Warn, Warn, Info and Debug with a nil error, and every other string
gives an error. The strings "fatal", "panic", "" and "foo" are rejected and
the six lower-case names are accepted. -/
theorem ParseLevel_accepts (tbl : Char → Char) (level : String) :
    (ParseLevel tbl level =
      if level = "off" then (LevelOff, none)
      else if strings.ToLower tbl level = "error" then (LevelError, none)
      else if strings.ToLower tbl level = "warn" ∨ strings.ToLower tbl level = "warning"
        then (LevelWarn, none)
      else if strings.ToLower tbl level = "info" then (LevelInfo, none)
      else if strings.ToLower tbl level = "debug" then (LevelDebug, none)
      else (LevelOff, some (unsupportedLevel level))) ∧
    (ParseLevel tbl "off" = (LevelOff, none) ∧ ParseLevel tbl "error" = (LevelError, none) ∧
      ParseLevel tbl "warn" = (LevelWarn, none) ∧ ParseLevel tbl "warning" = (LevelWarn, none) ∧
      ParseLevel tbl "info" = (LevelInfo, none) ∧ ParseLevel tbl "debug" = (LevelDebug, none)) ∧
    ((ParseLevel tbl "fatal").2.isSome = true ∧ (ParseLevel tbl "panic").2.isSome = true ∧
      (ParseLevel tbl "").2.isSome = true ∧ (ParseLevel tbl "foo").2.isSome = true) := by
  refine ⟨?_, ⟨rfl, rfl, rfl, rfl, rfl, rfl⟩, ⟨rfl, rfl, rfl, rfl⟩⟩
  unfold ParseLevel logrus.ParseLevel
  by_cases h0 : level = "off"
  · simp [h0]
  · simp only [if_neg h0]
    generalize strings.ToLower tbl level = l
    by_cases h1 : l = "panic"
    · subst h1; simp
    by_cases h2 : l = "fatal"
    · subst h2; simp
    by_cases h3 : l = "error"
    · subst h3; simp
    by_cases h4 : l = "warn"
    · subst h4; simp
    by_cases h5 : l = "warning"
    · subst h5; simp
    by_cases h6 : l = "info"
    · subst h6; simp
    by_cases h7 : l = "debug"
    · subst h7; simp
    by_cases h8 : l = "trace"
    · subst h8; simp
    simp [h1, h2, h3, h4, h5, h6, h7, h8]

/-- C3, round trip of String and ParseLevel. For each of the five level
constants, off included, parsing the name of the level gives the level back
with a nil error. -/
theorem ParseLevel_String (tbl : Char → Char) (L : Level) (hL : L ∈ definedLevels) :
    ParseLevel tbl (Level.String L) = (L, none) := by
  simp only [definedLevels, List.mem_cons, List.mem_singleton, List.mem_nil_iff,
    or_false] at hL
  rcases hL with rfl | rfl | rfl | rfl | rfl <;> rfl

/-- Witness for C3 at the warn level, whose name is "warning". -/
theorem ParseLevel_String_witness :
    LevelWarn ∈ definedLevels ∧ ParseLevel id (Level.String LevelWarn) = (LevelWarn, none) :=
  ⟨by decide, ParseLevel_String id LevelWarn (by decide)⟩

/-- An entry that passes the gate is left behind as the deferred function
leaves it. -/
theorem Fire_entry (hook : levelWriterHook) (entry : logrus.Entry)
    (h : ¬ entry.Level > hook.level) :
    (hook.Fire entry).entry =
      runDeferred (hook.beforeFormat entry).2 (hook.beforeFormat entry).1 := by
  simp only [levelWriterHook.Fire, if_neg h]
  cases hf : hook.formatter (hook.beforeFormat entry).1 <;> rfl

/-- The deferred function does not touch the level. -/
theorem runDeferred_Level (restore : Option String) (entry : logrus.Entry) :
    (runDeferred restore entry).Level = entry.Level := by
  cases restore <;> rfl

/-- The error block does not touch the level. -/
theorem errorBlock_Level (hook : levelWriterHook) (entry : logrus.Entry) :
    (hook.errorBlock entry).1.Level = entry.Level := by
  simp only [levelWriterHook.errorBlock]
  split_ifs <;> rfl

/-- Fire never changes the level of the entry. -/
theorem Fire_entry_Level (hook : levelWriterHook) (entry : logrus.Entry) :
    (hook.Fire entry).entry.Level = entry.Level := by
  by_cases h : entry.Level > hook.level
  · rw [Fire_gated hook entry h]
  · rw [Fire_entry hook entry h, runDeferred_Level]
    unfold levelWriterHook.beforeFormat
    split_ifs
    · exact errorBlock_Level hook entry
    · rfl

/-- Fire changes nothing of the hook but its writer. -/
theorem Fire_hook_level (hook : levelWriterHook) (entry : logrus.Entry) :
    (hook.Fire entry).hook.level = hook.level ∧
    (hook.Fire entry).hook.formatter = hook.formatter ∧
    (hook.Fire entry).hook.showErrorStack = hook.showErrorStack := by
  simp only [levelWriterHook.Fire]
  split_ifs
  · exact ⟨rfl, rfl, rfl⟩
  · cases hf : hook.formatter (hook.beforeFormat entry).1 <;> exact ⟨rfl, rfl, rfl⟩

/-- C4, error-message fallback and duplicate suppression. For an error-level
entry that passes the gate and whose "error" field carries the non-empty text
e, the entry handed to the formatter has message e and no "error" field when
the message of the entry is empty or equal to e, and keeps its message
together with "error" = e otherwise. -/
theorem Fire_error_message (hook : levelWriterHook) (entry : logrus.Entry) (e : String)
    (hlev : entry.Level = logrus.ErrorLevel) (hgate : entry.Level ≤ hook.level)
    (he : (hook.extractError entry).1 = e) (hne : e ≠ "") :
    ∃ f, (hook.Fire entry).formatted = some f ∧
      ((entry.Message = "" ∨ entry.Message = e) → f.Message = e ∧ f.Data "error" = none) ∧
      (¬ (entry.Message = "" ∨ entry.Message = e) →
        f.Message = entry.Message ∧ f.Data "error" = some (Value.str e)) := by
  refine ⟨_, Fire_formatted hook entry (Nat.not_lt.mpr hgate), ?_, ?_⟩
  · intro hm
    simp only [levelWriterHook.beforeFormat, if_pos hlev, levelWriterHook.errorBlock, he]
    rcases hm with hm | hm <;> split_ifs <;> simp_all [Fields.delete, Fields.set]
  · intro hm
    have h1 : entry.Message ≠ "" := fun h => hm (Or.inl h)
    have h2 : entry.Message ≠ e := fun h => hm (Or.inr h)
    simp only [levelWriterHook.beforeFormat, if_pos hlev, levelWriterHook.errorBlock, he]
    split_ifs <;> simp_all [Fields.delete, Fields.set]

/-- Witness for C4: the sample error entry (message "oops", error "boom") at
the sample file hook. -/
theorem Fire_error_message_witness :
    (sampleErrorEntry.Level = logrus.ErrorLevel ∧ sampleErrorEntry.Level ≤ sampleFileHook.level ∧
      "boom" ≠ "") ∧
    ∃ f, (sampleFileHook.Fire sampleErrorEntry).formatted = some f ∧
      ((sampleErrorEntry.Message = "" ∨ sampleErrorEntry.Message = "boom") →
        f.Message = "boom" ∧ f.Data "error" = none) ∧
      (¬ (sampleErrorEntry.Message = "" ∨ sampleErrorEntry.Message = "boom") →
        f.Message = sampleErrorEntry.Message ∧ f.Data "error" = some (Value.str "boom")) :=
  ⟨⟨rfl, by decide, by decide⟩,
    Fire_error_message sampleFileHook sampleErrorEntry "boom" rfl (by decide) rfl (by decide)⟩

/-- C5 as stated fails: an error-level entry whose "stack" field holds the
integer 42 passes the gate of the sample console hook, which hides stacks, and
is handed to the formatter with the "stack" field still present. -/
theorem Fire_keeps_non_string_stack :
    sampleConsoleHook.showErrorStack = false ∧
    intStackEntry.Level = logrus.ErrorLevel ∧
    intStackEntry.Level ≤ sampleConsoleHook.level ∧
    intStackEntry.Data "stack" = some (Value.other 42) ∧
    (sampleConsoleHook.Fire intStackEntry).formatted.map (fun f => f.Data "stack")
      = some (some (Value.other 42)) := by
  decide

/-- C5, amended. For an error-level entry that carries a "stack" field with
value v and passes the gate of a hook: when the hook shows stacks, the entry
handed to the formatter has "stack" = v; when the hook hides stacks and v is a
non-empty string, the entry handed to the formatter has no "stack" field; when
the hook hides stacks and v is not a non-empty string, "stack" = v stays. -/
theorem Fire_stack_hiding (hook : levelWriterHook) (entry : logrus.Entry) (v : Value)
    (hlev : entry.Level = logrus.ErrorLevel) (hgate : entry.Level ≤ hook.level)
    (hv : entry.Data "stack" = some v) :
    ∃ f, (hook.Fire entry).formatted = some f ∧
      (hook.showErrorStack = true → f.Data "stack" = some v) ∧
      (hook.showErrorStack = false → ∀ st, v = Value.str st → st ≠ "" →
        f.Data "stack" = none) ∧
      (hook.showErrorStack = false → (∀ st, v = Value.str st → st = "") →
        f.Data "stack" = some v) := by
  refine ⟨_, Fire_formatted hook entry (Nat.not_lt.mpr hgate), ?_, ?_, ?_⟩
  · intro hs
    simp only [levelWriterHook.beforeFormat, if_pos hlev, levelWriterHook.errorBlock, hs]
    split_ifs <;> simp_all [Fields.delete, Fields.set]
  · intro hs st hst hne
    subst hst
    have h2 : (hook.extractError entry).2 = st := by
      simp [levelWriterHook.extractError, hv]
    simp only [levelWriterHook.beforeFormat, if_pos hlev, levelWriterHook.errorBlock, hs, h2]
    simp [hne, Fields.delete]
  · intro hs hall
    have h2 : (hook.extractError entry).2 = "" := by
      simp only [levelWriterHook.extractError, hv]
      cases v <;> simp_all
    simp only [levelWriterHook.beforeFormat, if_pos hlev, levelWriterHook.errorBlock, hs, h2]
    split_ifs <;> simp_all [Fields.delete, Fields.set]

/-- Witness for C5: the sample error entry, whose stack is "main.go:1", at the
sample console hook. -/
theorem Fire_stack_hiding_witness :
    (sampleErrorEntry.Level = logrus.ErrorLevel ∧
      sampleErrorEntry.Level ≤ sampleConsoleHook.level ∧
      sampleErrorEntry.Data "stack" = some (Value.str "main.go:1")) ∧
    ∃ f, (sampleConsoleHook.Fire sampleErrorEntry).formatted = some f ∧
      (sampleConsoleHook.showErrorStack = true → f.Data "stack" = some (Value.str "main.go:1")) ∧
      (sampleConsoleHook.showErrorStack = false → ∀ st, Value.str "main.go:1" = Value.str st →
        st ≠ "" → f.Data "stack" = none) ∧
      (sampleConsoleHook.showErrorStack = false →
        (∀ st, Value.str "main.go:1" = Value.str st → st = "") →
        f.Data "stack" = some (Value.str "main.go:1")) :=
  ⟨⟨rfl, by decide, by decide⟩,
    Fire_stack_hiding sampleConsoleHook sampleErrorEntry (Value.str "main.go:1") rfl
      (by decide) (by decide)⟩

/-- C6, the friendly message of PrintError. In an active state (logger at the
debug level with the file hook and the console hook registered in this
order), PrintError dispatches the error-level entry of the error to the file
hook. When the console level is off, the console writer receives the message
followed by one newline and nothing else. When the console level is not off,
there is no direct write: the console writer receives only what the console
hook itself writes for the entry. -/
theorem PrintError_friendly_message (here : String) (err : GoError) (message : String)
    (s : State) (logger : logrus.Logger) (fileH stdH : levelWriterHook)
    (hl : s.logger = some logger) (hlv : logger.Level = logrus.DebugLevel)
    (hhooks : logger.Hooks = [logrus.HookRef.file, logrus.HookRef.stdout])
    (hf : s.fileHook = some fileH) (hs : s.stdoutHook = some stdH) :
    (stdH.level = LevelOff.toLogrus →
      PrintError here err message s = Except.ok { s with
        fileHook := some (fileH.Fire (dispatched
          (logrus.Entry.new.WithFields (fieldsFromError here err)) logrus.ErrorLevel "")).hook,
        stdoutHook := some { stdH with writer := { stdH.writer with
          received := stdH.writer.received ++ [message ++ "\n"] } } }) ∧
    (stdH.level ≠ LevelOff.toLogrus →
      PrintError here err message s = Except.ok { s with
        fileHook := some (fileH.Fire (dispatched
          (logrus.Entry.new.WithFields (fieldsFromError here err)) logrus.ErrorLevel "")).hook,
        stdoutHook := some
          (if (fileH.Fire (dispatched (logrus.Entry.new.WithFields (fieldsFromError here err))
              logrus.ErrorLevel "")).err.isSome then stdH
           else (stdH.Fire (fileH.Fire (dispatched
              (logrus.Entry.new.WithFields (fieldsFromError here err))
              logrus.ErrorLevel "")).entry).hook) }) := by
  obtain ⟨lg, fh, sh, dirs⟩ := s
  simp only at hl hf hs
  subst hl hf hs
  generalize hentry : dispatched (logrus.Entry.new.WithFields (fieldsFromError here err))
    logrus.ErrorLevel "" = entry
  have hEL : entry.Level = logrus.ErrorLevel := by rw [← hentry]; rfl
  have hlvl : logger.Level ≥ logrus.ErrorLevel := by rw [hlv]; decide
  constructor
  · intro hoff
    have hg : (fileH.Fire entry).entry.Level > stdH.level := by
      rw [Fire_entry_Level, hEL, hoff]; decide
    cases hE : (fileH.Fire entry).err with
    | some e =>
      simp [PrintError, loggerWithFields, logEntry, hlvl, hhooks, fireHooks, State.hook,
        State.setHook, hentry, hE, hoff, io.Writer.Write]
    | none =>
      simp [PrintError, loggerWithFields, logEntry, hlvl, hhooks, fireHooks, State.hook,
        State.setHook, hentry, hE, hoff, io.Writer.Write, Fire_gated _ _ hg]
  · intro hoff
    cases hE : (fileH.Fire entry).err with
    | some e =>
      simp [PrintError, loggerWithFields, logEntry, hlvl, hhooks, fireHooks, State.hook,
        State.setHook, hentry, hE, hoff]
    | none =>
      cases hE2 : (stdH.Fire (fileH.Fire entry).entry).err <;>
      simp [PrintError, loggerWithFields, logEntry, hlvl, hhooks, fireHooks, State.hook,
        State.setHook, hentry, hE, hE2, hoff, (Fire_hook_level stdH _).1]

/-- Witness for C6: the active sample state with the console switched off; the
console writer receives "hello" and a newline and nothing else. -/
theorem PrintError_friendly_message_witness :
    sampleOffHook.level = LevelOff.toLogrus ∧
    PrintError "main.go:7" sampleError "hello" sampleOffState = Except.ok { sampleOffState with
      fileHook := some (sampleFileHook.Fire (dispatched
        (logrus.Entry.new.WithFields (fieldsFromError "main.go:7" sampleError))
        logrus.ErrorLevel "")).hook,
      stdoutHook := some { sampleOffHook with writer := { sampleOffHook.writer with
        received := sampleOffHook.writer.received ++ ["hello" ++ "\n"] } } } :=
  ⟨rfl, (PrintError_friendly_message "main.go:7" sampleError "hello" sampleOffState
    sampleLogger sampleFileHook sampleOffHook rfl rfl rfl rfl rfl).1 rfl⟩

/-- A chain of With calls binds every key to the value of the last map of the
chain that binds it to a value that is not a function, and keeps the bindings
of the starting entry for the other keys. -/
theorem WithAll_Data (fs : List Fields) (e : Entry) (k : String) :
    (e.WithAll fs).inner.Data k =
      match lastKept fs k with
      | some v => some v
      | none => e.inner.Data k := by
  induction fs generalizing e with
  | nil => rfl
  | cons f fs ih =>
    have hstep : e.WithAll (f :: fs) = (e.With f).WithAll fs := rfl
    rw [hstep, ih]
    simp only [lastKept]
    cases h : lastKept fs k with
    | some v => rfl
    | none =>
      simp only [Entry.With, logrus.Entry.WithFields, Fields.merge]
      cases hf : f k with
      | none => rfl
      | some v => cases v <;> rfl

/-- The entry With(f1) returns, followed by a chain of With calls, carries the
kept last write of the whole list of maps. -/
theorem With_WithAll_Data (f1 : Fields) (fs : List Fields) (k : String) :
    ((Entry.mk (logrus.Entry.new.WithFields f1)).WithAll fs).inner.Data k
      = lastKept (f1 :: fs) k := by
  rw [WithAll_Data]
  simp only [lastKept, logrus.Entry.WithFields, logrus.Entry.new, Fields.merge, Fields.empty]

/-- In an active state (logger at the debug level or above the level of the
call, file hook then console hook registered) a finalization fires the file
hook and then the console hook on the dispatched entry. -/
theorem logEntry_active (s : State) (logger : logrus.Logger) (fileH stdH : levelWriterHook)
    (hl : s.logger = some logger) (hhooks : logger.Hooks = [logrus.HookRef.file,
      logrus.HookRef.stdout])
    (hf : s.fileHook = some fileH) (hs : s.stdoutHook = some stdH)
    (entry : logrus.Entry) (level : logrus.Level) (message : String)
    (hle : logger.Level ≥ level) :
    logEntry s entry level message =
      Except.ok (afterHooks s fileH stdH (dispatched entry level message)) := by
  obtain ⟨lg, fh, sh, dirs⟩ := s
  simp only at hl hf hs
  subst hl hf hs
  generalize hd : dispatched entry level message = d
  cases hE : (fileH.Fire d).err with
  | some e =>
    simp [logEntry, hle, hhooks, fireHooks, State.hook, State.setHook, afterHooks, hd, hE]
  | none =>
    cases hE2 : (stdH.Fire (fileH.Fire d).entry).err <;>
    simp [logEntry, hle, hhooks, fireHooks, State.hook, State.setHook, afterHooks, hd, hE, hE2]

/-- Allocation leaves every entry that was on the heap where it was, and puts
the new entry at an address that was not in use. -/
theorem Heap_alloc_spec (h : Heap) (e : Entry) :
    (h.alloc e).1 = h.cells.length ∧
    (h.alloc e).2.cells[(h.alloc e).1]? = some e ∧
    (∀ a, a < h.cells.length → (h.alloc e).2.cells[a]? = h.cells[a]?) := by
  refine ⟨rfl, ?_, ?_⟩
  · simp [Heap.alloc]
  · intro a ha
    simp [Heap.alloc, List.getElem?_append_left ha]

/-- Appending one map to a chain of With calls is one more With call. -/
theorem WithAll_append (e : Entry) (fs : List Fields) (g : Fields) :
    e.WithAll (fs ++ [g]) = (e.WithAll fs).With g := by
  simp [Entry.WithAll, List.foldl_append]

/-- C7 as stated fails: the map that binds "k" to 1 and "f" to a function
contains the key "f", so last-write-wins over all field maps asks for "f"
bound to the function, but the entry With returns in the active sample state
has no key "f" (the key "k" is kept). -/
theorem With_refuses_function_field :
    funcFields "f" = some Value.func ∧
    lastWrite [funcFields] "f" = some Value.func ∧
    (With funcFields sampleState).map (fun e => e.inner.Data "f") = Except.ok none ∧
    (With funcFields sampleState).map (fun e => e.inner.Data "k")
      = Except.ok (some (Value.other 1)) :=
  ⟨rfl, rfl, rfl, rfl⟩

/-- C7, amended. In an active state (logger at the debug level, file hook then
console hook registered) With(f1) returns an entry, and after the further
calls With(f2), ..., With(fn) the entry carries exactly the keys that some map
binds to a value that is not a function, each bound to the value of the last
map that binds it to such a value. Debug, Info and Warn dispatch the entry with
these fields: the file hook and then the console hook fire on it, each hands it
unchanged to its formatter when its gate lets it pass. Error(err) dispatches
the entry with the fields of the error merged last. Every With call allocates
a new entry and leaves its receiver, and every other entry, as it was. -/
theorem With_last_write_wins (s : State) (logger : logrus.Logger)
    (fileH stdH : levelWriterHook) (f1 : Fields) (fs : List Fields)
    (hl : s.logger = some logger) (hlv : logger.Level = logrus.DebugLevel)
    (hhooks : logger.Hooks = [logrus.HookRef.file, logrus.HookRef.stdout])
    (hf : s.fileHook = some fileH) (hs : s.stdoutHook = some stdH) :
    ∃ e, With f1 s = Except.ok e ∧
      (∀ k, (e.WithAll fs).inner.Data k = lastKept (f1 :: fs) k) ∧
      (∀ message,
        Entry.Debug (e.WithAll fs) message s = Except.ok (afterHooks s fileH stdH
          (dispatched (e.WithAll fs).inner logrus.DebugLevel message)) ∧
        Entry.Info (e.WithAll fs) message s = Except.ok (afterHooks s fileH stdH
          (dispatched (e.WithAll fs).inner logrus.InfoLevel message)) ∧
        Entry.Warn (e.WithAll fs) message s = Except.ok (afterHooks s fileH stdH
          (dispatched (e.WithAll fs).inner logrus.WarnLevel message))) ∧
      (∀ here err,
        Entry.Error (e.WithAll fs) here err s = Except.ok (afterHooks s fileH stdH
          (dispatched (e.WithAll (fs ++ [fieldsFromError here err])).inner
            logrus.ErrorLevel "")) ∧
        ∀ k, (e.WithAll (fs ++ [fieldsFromError here err])).inner.Data k
          = lastKept (f1 :: (fs ++ [fieldsFromError here err])) k) ∧
      (∀ (hook : levelWriterHook) (level : logrus.Level) (message : String),
        level ≠ logrus.ErrorLevel → level ≤ hook.level →
        (hook.Fire (dispatched (e.WithAll fs).inner level message)).formatted =
          some (dispatched (e.WithAll fs).inner level message) ∧
        (hook.Fire (dispatched (e.WithAll fs).inner level message)).entry =
          dispatched (e.WithAll fs).inner level message) ∧
      (∀ (h : Heap) (p : Nat) (r : Entry) (g : Fields), h.cells[p]? = some r →
        ∃ q h1, h.EntryWith p g = Except.ok (q, h1) ∧ q ≠ p ∧
          h1.cells[q]? = some (r.With g) ∧ h1.cells[p]? = some r ∧
          ∀ a, a < h.cells.length → h1.cells[a]? = h.cells[a]?) ∧
      (∀ h : Heap, ∃ q h1, h.With f1 s = Except.ok (q, h1) ∧
          h1.cells[q]? = some e ∧
          ∀ a, a < h.cells.length → h1.cells[a]? = h.cells[a]?) := by
  have hW : With f1 s = Except.ok (Entry.mk (logrus.Entry.new.WithFields f1)) := by
    simp [With, loggerWithFields, hl]
  have hge : ∀ level : logrus.Level, level ≤ logrus.DebugLevel → logger.Level ≥ level := by
    intro level h
    rw [hlv]
    exact h
  refine ⟨Entry.mk (logrus.Entry.new.WithFields f1), hW, With_WithAll_Data f1 fs, ?_, ?_, ?_,
    ?_, ?_⟩
  · intro message
    exact ⟨logEntry_active s logger fileH stdH hl hhooks hf hs _ _ _ (hge _ (by decide)),
      logEntry_active s logger fileH stdH hl hhooks hf hs _ _ _ (hge _ (by decide)),
      logEntry_active s logger fileH stdH hl hhooks hf hs _ _ _ (hge _ (by decide))⟩
  · intro here err
    refine ⟨?_, With_WithAll_Data f1 _⟩
    rw [WithAll_append]
    exact logEntry_active s logger fileH stdH hl hhooks hf hs _ _ _ (hge _ (by decide))
  · intro hook level message hne hle
    rw [Fire_formatted hook _ (Nat.not_lt.mpr hle), Fire_entry hook _ (Nat.not_lt.mpr hle)]
    simp [levelWriterHook.beforeFormat, dispatched, hne, runDeferred]
  · intro h p r g hp
    have hlt : p < h.cells.length := by
      by_contra hc
      rw [List.getElem?_eq_none (Nat.le_of_not_lt hc)] at hp
      cases hp
    obtain ⟨h1, h2, h3⟩ := Heap_alloc_spec h (r.With g)
    refine ⟨(h.alloc (r.With g)).1, (h.alloc (r.With g)).2, ?_, ?_, h2, ?_, h3⟩
    · simp [Heap.EntryWith, hp]
    · rw [h1]; exact Nat.ne_of_gt hlt
    · rw [h3 p hlt]; exact hp
  · intro h
    obtain ⟨_, h2, h3⟩ := Heap_alloc_spec h (Entry.mk (logrus.Entry.new.WithFields f1))
    exact ⟨_, _, by simp only [Heap.With, hW], h2, h3⟩

/-- Witness for C7: With of a=1, then With of a=2, then With of b=3 in the
active sample state carries a=2 and b=3 and nothing under another key, and
Info hands the entry to the two sample hooks. -/
theorem With_last_write_wins_witness :
    (sampleState.logger = some sampleLogger ∧ sampleLogger.Level = logrus.DebugLevel ∧
      sampleState.fileHook = some sampleFileHook ∧
      sampleState.stdoutHook = some sampleConsoleHook) ∧
    ∃ e, With (single "a" (Value.other 1)) sampleState = Except.ok e ∧
      (e.WithAll [single "a" (Value.other 2), single "b" (Value.other 3)]).inner.Data "a"
        = some (Value.other 2) ∧
      (e.WithAll [single "a" (Value.other 2), single "b" (Value.other 3)]).inner.Data "b"
        = some (Value.other 3) ∧
      (e.WithAll [single "a" (Value.other 2), single "b" (Value.other 3)]).inner.Data "c"
        = none ∧
      Entry.Info (e.WithAll [single "a" (Value.other 2), single "b" (Value.other 3)]) "m"
          sampleState
        = Except.ok (afterHooks sampleState sampleFileHook sampleConsoleHook
            (dispatched (e.WithAll [single "a" (Value.other 2),
              single "b" (Value.other 3)]).inner logrus.InfoLevel "m")) := by
  refine ⟨⟨rfl, rfl, rfl, rfl⟩, ?_⟩
  obtain ⟨e, he, hk, hfin, _⟩ := With_last_write_wins sampleState sampleLogger sampleFileHook
    sampleConsoleHook (single "a" (Value.other 1))
    [single "a" (Value.other 2), single "b" (Value.other 3)] rfl rfl rfl rfl rfl
  exact ⟨e, he, by rw [hk]; decide, by rw [hk]; decide, by rw [hk]; decide, (hfin "m").2.1⟩

/-- The fields of an error use the keys "error" and "stack" only. -/
theorem fieldsFromError_keys (here : String) (err : GoError) (k : String)
    (h1 : k ≠ "error") (h2 : k ≠ "stack") : fieldsFromError here err k = none := by
  simp only [fieldsFromError]
  split_ifs <;> simp [Fields.set, Fields.empty, h1, h2]

/-- The "error" field of an error is the text of the error, wherever the trace
was captured. -/
theorem fieldsFromError_error (here : String) (err : GoError) :
    fieldsFromError here err "error" = some (Value.str err.text) := by
  simp only [fieldsFromError, extract]
  split_ifs <;> simp [Fields.set, Fields.empty]

/-- The "stack" field of an error is absent or a string. -/
theorem fieldsFromError_stack (here : String) (err : GoError) :
    fieldsFromError here err "stack" = none ∨
    ∃ t, fieldsFromError here err "stack" = some (Value.str t) := by
  simp only [fieldsFromError]
  split_ifs
  · left; simp [Fields.set, Fields.empty]
  · right; exact ⟨(extract here err).2, by simp [Fields.set]⟩

/-- An error that carries its own trace gives the same fields wherever it is
logged. -/
theorem fieldsFromError_trace (here1 here2 : String) (err : GoError)
    (h : err.trace.isSome = true ∨ here1 = here2) :
    fieldsFromError here1 err = fieldsFromError here2 err := by
  rcases h with h | h
  · obtain ⟨t, ht⟩ := Option.isSome_iff_exists.mp h
    simp only [fieldsFromError, extract, ht]
  · rw [h]

/-- C8 as stated fails: for an error without a trace of its own, logged with
the custom field port = 8080 in the active sample state, the entry dispatched
by With(fields).WithError(err) carries the trace captured at its WithError
call and the entry dispatched by WithError(err).With(fields) carries the trace
captured at its own, so with two capture points the "stack" fields differ. -/
theorem With_WithError_stack_differs :
    sampleError.trace = none ∧ portFields "error" = none ∧ portFields "stack" = none ∧
    (With portFields sampleState).map (fun a =>
        (dispatched (a.WithError "main.go:7" sampleError).inner logrus.ErrorLevel "oops").Data
          "stack")
      = Except.ok (some (Value.str "main.go:7")) ∧
    (WithError "main.go:9" sampleError sampleState).map (fun b =>
        (dispatched (b.With portFields).inner logrus.ErrorLevel "oops").Data "stack")
      = Except.ok (some (Value.str "main.go:9")) ∧
    Value.str "main.go:7" ≠ Value.str "main.go:9" :=
  ⟨rfl, rfl, rfl, rfl, rfl, by decide⟩

/-- C8, amended. For a field map that contains neither the key "error" nor the
key "stack", with an active logger, With(fields).WithError(err).Error(m) and
WithError(err).With(fields).Error(m) dispatch entries with the same level, the
same message and the same fields under every key other than "stack"; the
"stack" field of each entry is the one extracted at its own WithError call.
When the error carries its own trace, or the two calls capture the same trace,
the two entries are equal and the global state after the two calls, both sinks
included, is the same. -/
theorem With_WithError_commute (here1 here2 : String) (err : GoError) (fields : Fields)
    (m : String) (s : State) (hl : s.logger.isSome = true)
    (h1 : fields "error" = none) (h2 : fields "stack" = none) :
    ∃ a b d1 d2, With fields s = Except.ok a ∧ WithError here2 err s = Except.ok b ∧
      dispatched (a.WithError here1 err).inner logrus.ErrorLevel m = d1 ∧
      dispatched (b.With fields).inner logrus.ErrorLevel m = d2 ∧
      d1.Level = logrus.ErrorLevel ∧ d2.Level = logrus.ErrorLevel ∧
      d1.Message = m ∧ d2.Message = m ∧
      (∀ k, k ≠ "stack" → d1.Data k = d2.Data k) ∧
      d1.Data "stack" = fieldsFromError here1 err "stack" ∧
      d2.Data "stack" = fieldsFromError here2 err "stack" ∧
      (err.trace.isSome = true ∨ here1 = here2 →
        d1 = d2 ∧ (a.WithError here1 err).Error m s = (b.With fields).Error m s) := by
  obtain ⟨lg, hlg⟩ := Option.isSome_iff_exists.mp hl
  have hA : ∀ here k,
      ((logrus.Entry.new.WithFields fields).WithFields (fieldsFromError here err)).Data k
        = if k = "error" ∨ k = "stack" then fieldsFromError here err k
          else (logrus.Entry.new.WithFields fields).Data k := by
    intro here k
    simp only [logrus.Entry.WithFields, logrus.Entry.new, Fields.merge, Fields.empty]
    by_cases hk1 : k = "error"
    · subst hk1
      simp [fieldsFromError_error, h1]
    · by_cases hk2 : k = "stack"
      · subst hk2
        rcases fieldsFromError_stack here err with h | ⟨t, h⟩ <;> simp [h, h2]
      · simp [hk1, hk2, fieldsFromError_keys here err k hk1 hk2]
  have hB : ∀ here k,
      ((logrus.Entry.new.WithFields (fieldsFromError here err)).WithFields fields).Data k
        = if k = "error" ∨ k = "stack" then fieldsFromError here err k
          else (logrus.Entry.new.WithFields fields).Data k := by
    intro here k
    simp only [logrus.Entry.WithFields, logrus.Entry.new, Fields.merge, Fields.empty]
    by_cases hk1 : k = "error"
    · subst hk1
      simp [fieldsFromError_error, h1]
    · by_cases hk2 : k = "stack"
      · subst hk2
        rcases fieldsFromError_stack here err with h | ⟨t, h⟩ <;> simp [h, h2]
      · simp [hk1, hk2, fieldsFromError_keys here err k hk1 hk2]
  refine ⟨{ inner := logrus.Entry.new.WithFields fields },
    { inner := logrus.Entry.new.WithFields (fieldsFromError here2 err) }, _, _, ?_, ?_, rfl, rfl,
    rfl, rfl, rfl, rfl, ?_, ?_, ?_, ?_⟩
  · simp [With, loggerWithFields, hlg]
  · simp [WithError, loggerWithFields, hlg]
  · intro k hk
    show ((logrus.Entry.new.WithFields fields).WithFields (fieldsFromError here1 err)).Data k
      = ((logrus.Entry.new.WithFields (fieldsFromError here2 err)).WithFields fields).Data k
    rw [hA, hB]
    by_cases hk1 : k = "error"
    · subst hk1
      simp [fieldsFromError_error]
    · simp [hk1, hk]
  · show ((logrus.Entry.new.WithFields fields).WithFields (fieldsFromError here1 err)).Data
      "stack" = _
    rw [hA]; simp
  · show ((logrus.Entry.new.WithFields (fieldsFromError here2 err)).WithFields fields).Data
      "stack" = _
    rw [hB]; simp
  · intro htr
    have hff := fieldsFromError_trace here1 here2 err htr
    have hdata : (logrus.Entry.new.WithFields fields).WithFields (fieldsFromError here1 err)
        = (logrus.Entry.new.WithFields (fieldsFromError here2 err)).WithFields fields := by
      have hd : ((logrus.Entry.new.WithFields fields).WithFields
          (fieldsFromError here1 err)).Data
          = ((logrus.Entry.new.WithFields (fieldsFromError here2 err)).WithFields
            fields).Data := by
        funext k
        rw [hA, hB, hff]
      simp only [logrus.Entry.WithFields] at hd ⊢
      rw [hd]
    constructor
    · simp only [Entry.WithError, ErrorEntry.With, hdata]
    · simp only [ErrorEntry.Error, Entry.WithError, ErrorEntry.With, hdata]

/-- Witness for C8: the custom field port = 8080 and the sample error, logged
with the same captured trace in the active sample state. -/
theorem With_WithError_commute_witness :
    (sampleState.logger.isSome = true ∧ portFields "error" = none ∧
      portFields "stack" = none) ∧
    ∃ a b, With portFields sampleState = Except.ok a ∧
      WithError "main.go:7" sampleError sampleState = Except.ok b ∧
      (a.WithError "main.go:7" sampleError).Error "oops" sampleState =
        (b.With portFields).Error "oops" sampleState := by
  refine ⟨⟨rfl, rfl, rfl⟩, ?_⟩
  obtain ⟨a, b, _, _, ha, hb, _, _, _, _, _, _, _, _, _, hfin⟩ :=
    With_WithError_commute "main.go:7" "main.go:7" sampleError portFields "oops"
      sampleState rfl rfl rfl
  exact ⟨a, b, ha, hb, (hfin (Or.inr rfl)).2⟩



/-- C9, round trip of the stdout level. For each of the five level constants,
converting to the logrus level and back gives the level, and with a console
hook installed SetStdoutLevel succeeds and GetStdoutLevel then returns the
level that was set. -/
theorem GetStdoutLevel_SetStdoutLevel (s : State) (L : Level) (hL : L ∈ definedLevels)
    (hs : s.stdoutHook.isSome = true) :
    fromLogrus L.toLogrus = L ∧
    ∃ s1, SetStdoutLevel L s = Except.ok s1 ∧ GetStdoutLevel s1 = Except.ok L := by
  have hrt : fromLogrus L.toLogrus = L := by
    simp only [definedLevels, List.mem_cons, List.mem_singleton, List.mem_nil_iff,
      or_false] at hL
    rcases hL with rfl | rfl | rfl | rfl | rfl <;> rfl
  obtain ⟨h, hh⟩ := Option.isSome_iff_exists.mp hs
  exact ⟨hrt, _, by simp only [SetStdoutLevel, hh]; rfl, by simp [GetStdoutLevel, hrt]⟩

/-- Witness for C9: the off level set on the active sample state. -/
theorem GetStdoutLevel_SetStdoutLevel_witness :
    (LevelOff ∈ definedLevels ∧ sampleState.stdoutHook.isSome = true) ∧
    ∃ s1, SetStdoutLevel LevelOff sampleState = Except.ok s1 ∧
      GetStdoutLevel s1 = Except.ok LevelOff :=
  ⟨⟨by decide, rfl⟩, (GetStdoutLevel_SetStdoutLevel sampleState LevelOff (by decide) rfl).2⟩

/-- A successful Setup leaves a logger behind. -/
theorem Setup_logger (env : Env) (logPath logsufix : String) (purge rotate : Int)
    (s s1 : State) (h : Setup env logPath logsufix purge rotate s = Except.ok s1) :
    s1.logger.isSome = true := by
  unfold Setup at h
  by_cases hl : s.logger.isSome = true
  · rw [if_pos hl] at h
    cases h
    exact hl
  · rw [if_neg hl] at h
    cases hm : env.MkdirAll logPath s.dirs with
    | error e => rw [hm] at h; cases h
    | ok dirs =>
      rw [hm] at h
      simp only at h
      split at h
      · cases h
      · cases h; rfl

/-- C10, Setup is idempotent while active. When the logger is set, a call of
Setup with any arguments and any collaborators returns without a panic and
leaves the whole state as it was: the logger, the two hooks with their levels
and writers, and the directories on disk. In particular a second Setup right
after a successful one, whatever its arguments, changes nothing. -/
theorem Setup_idempotent (env env0 : Env) (logPath logsufix logPath0 logsufix0 : String)
    (purge rotate purge0 rotate0 : Int) (s : State) :
    (s.logger.isSome = true → Setup env logPath logsufix purge rotate s = Except.ok s) ∧
    (∀ s1, Setup env0 logPath0 logsufix0 purge0 rotate0 s = Except.ok s1 →
      Setup env logPath logsufix purge rotate s1 = Except.ok s1) := by
  have hres : ∀ t : State, t.logger.isSome = true →
      Setup env logPath logsufix purge rotate t = Except.ok t := by
    intro t ht
    unfold Setup
    rw [if_pos ht]
  exact ⟨hres s, fun s1 h1 =>
    hres s1 (Setup_logger env0 logPath0 logsufix0 purge0 rotate0 s s1 h1)⟩

/-- Witness for C10: Setup on the active sample state, with another path and
with collaborators that would panic if they were called. -/
theorem Setup_idempotent_witness :
    sampleState.logger.isSome = true ∧
    Setup failingEnv "/tmp/other" "mysufix" 2 1 sampleState = Except.ok sampleState :=
  ⟨rfl, (Setup_idempotent failingEnv failingEnv "/tmp/other" "mysufix" "/tmp/first" "mysufix"
    2 1 2 1 sampleState).1 rfl⟩

/-- C11, the defaults of Setup. When no logger is active, a Setup call that
returns has installed a file hook at the info level that shows stacks and a
console hook at the info level that hides stacks, writing to the rotating
writer and to the standard output, and a logger at the debug level with both
hooks; Setup returns whenever directory creation and the construction of the
rotating writer succeed. No logger is active initially and after TearDown,
whatever was configured before. -/
theorem Setup_defaults (env : Env) (logPath logsufix : String) (purge rotate : Int)
    (s : State) (hs : s.logger = none) :
    (∀ s1, Setup env logPath logsufix purge rotate s = Except.ok s1 →
      ∃ w,
        s1.fileHook = some
          { level := LevelInfo.toLogrus, writer := w,
            formatter := env.JSONFormatter, showErrorStack := true } ∧
        s1.stdoutHook = some
          { level := LevelInfo.toLogrus, writer := env.Stdout,
            formatter := env.TextFormatter, showErrorStack := false } ∧
        s1.logger = some
          { Out := logrus.Out.discard, Level := logrus.DebugLevel,
            Hooks := [logrus.HookRef.file, logrus.HookRef.stdout] }) ∧
    (∀ dirs w, env.MkdirAll logPath s.dirs = Except.ok dirs →
      env.rotatelogsNew
        ((env.Join logPath (logsufix ++ ".log")).replace (logsufix ++ ".log")
          ("%Y%m%d%H%M-" ++ logsufix ++ ".json"))
        (env.Join logPath (logsufix ++ ".log")) (minutes purge) (minutes rotate)
        = Except.ok w →
      ∃ s1, Setup env logPath logsufix purge rotate s = Except.ok s1) ∧
    (∀ s0 : State, (TearDown s0).logger = none) ∧
    (∀ dirs, (State.initial dirs).logger = none) := by
  have hl : s.logger.isSome = false := by rw [hs]; rfl
  refine ⟨?_, ?_, fun _ => rfl, fun _ => rfl⟩
  · intro s1 h
    unfold Setup at h
    simp only [hl, Bool.false_eq_true, if_false] at h
    cases hm : env.MkdirAll logPath s.dirs with
    | error e => rw [hm] at h; cases h
    | ok dirs =>
      rw [hm] at h
      simp only at h
      split at h
      · cases h
      · rename_i w _
        cases h
        exact ⟨w, rfl, rfl, rfl⟩
  · intro dirs w hm hr
    unfold Setup
    simp only [hl, Bool.false_eq_true, if_false, hm, hr]
    exact ⟨_, rfl⟩

/-- Witness for C11: Setup with working collaborators on a state that was torn
down after the console had been switched off. -/
theorem Setup_defaults_witness :
    sampleTornDown.logger = none ∧
    ∃ s1, Setup workingEnv "/var/log/app" "mysufix" 2 1 sampleTornDown = Except.ok s1 ∧
      ∃ w,
        s1.fileHook = some
          { level := LevelInfo.toLogrus, writer := w,
            formatter := workingEnv.JSONFormatter, showErrorStack := true } ∧
        s1.stdoutHook = some
          { level := LevelInfo.toLogrus, writer := workingEnv.Stdout,
            formatter := workingEnv.TextFormatter, showErrorStack := false } := by
  obtain ⟨h1, h2, _, _⟩ :=
    Setup_defaults workingEnv "/var/log/app" "mysufix" 2 1 sampleTornDown rfl
  obtain ⟨s1, hs1⟩ := h2 _ sampleWriter rfl rfl
  obtain ⟨w, hf, hc, _⟩ := h1 s1 hs1
  exact ⟨rfl, s1, hs1, w, hf, hc⟩

/-- C12 as stated fails: after TearDown the call Debug("m") ends in the panic
of a nil pointer dereference. -/
theorem Debug_after_TearDown_panics :
    (TearDown sampleState).logger = none ∧
    Debug "m" (TearDown sampleState) = Except.error nilDeref := by
  exact ⟨rfl, rfl⟩

/-- C12, amended. After TearDown the logger and both hooks are nil, and each
of the calls Debug, Info, Warn and Error panics on the nil logger with a nil
pointer dereference; no hook is reached, so neither sink receives anything. -/
theorem finalize_after_TearDown (s : State) (message here : String) (err : GoError) :
    (TearDown s).logger = none ∧ (TearDown s).fileHook = none ∧
    (TearDown s).stdoutHook = none ∧
    Debug message (TearDown s) = Except.error nilDeref ∧
    Info message (TearDown s) = Except.error nilDeref ∧
    Warn message (TearDown s) = Except.error nilDeref ∧
    Error here err (TearDown s) = Except.error nilDeref :=
  ⟨rfl, rfl, rfl, rfl, rfl, rfl, rfl⟩

/-- C16, level names. The names of the five level constants are "off",
"error", "warning", "info" and "debug". -/
theorem Level_String_names :
    Level.String LevelOff = "off" ∧ Level.String LevelError = "error" ∧
    Level.String LevelWarn = "warning" ∧ Level.String LevelInfo = "info" ∧
    Level.String LevelDebug = "debug" := by
  decide

/-- C15, hook failures are surfaced. For an entry that passes the gate: when
the formatter returns an error, Fire returns that error and the hook and its
writer are untouched; when the formatter succeeds, the writer receives the
bytes and Fire returns what Write returns, so an error of Write is returned.
Fire returns nil only when the entry was gated out or when formatting and
writing both succeeded. -/
theorem Fire_failures (hook : levelWriterHook) (entry : logrus.Entry) :
    (entry.Level ≤ hook.level →
      (∀ e, hook.formatter (hook.beforeFormat entry).1 = Except.error e →
        (hook.Fire entry).err = some e ∧ (hook.Fire entry).hook = hook) ∧
      (∀ msg, hook.formatter (hook.beforeFormat entry).1 = Except.ok msg →
        (hook.Fire entry).err = (hook.writer.Write msg).2 ∧
        (hook.Fire entry).hook.writer.received = hook.writer.received ++ [msg])) ∧
    ((hook.Fire entry).err = none →
      entry.Level > hook.level ∨
      ∃ msg, hook.formatter (hook.beforeFormat entry).1 = Except.ok msg ∧
        (hook.writer.Write msg).2 = none) := by
  constructor
  · intro hgate
    have hn : ¬ entry.Level > hook.level := Nat.not_lt.mpr hgate
    constructor
    · intro e he
      simp [levelWriterHook.Fire, if_neg hn, he]
    · intro msg hmsg
      simp [levelWriterHook.Fire, if_neg hn, hmsg, io.Writer.Write]
  · intro herr
    by_cases hg : entry.Level > hook.level
    · exact Or.inl hg
    · right
      simp only [levelWriterHook.Fire, if_neg hg] at herr
      cases hf : hook.formatter (hook.beforeFormat entry).1 with
      | error e => rw [hf] at herr; cases herr
      | ok msg => rw [hf] at herr; exact ⟨msg, rfl, herr⟩

/-- Witness for C15: the sample error entry at a hook whose formatter fails
and at a hook whose writer fails. -/
theorem Fire_failures_witness :
    sampleErrorEntry.Level ≤ failingFormatterHook.level ∧
    ((failingFormatterHook.Fire sampleErrorEntry).err = some "cannot format" ∧
      (failingFormatterHook.Fire sampleErrorEntry).hook = failingFormatterHook) ∧
    (failingWriterHook.Fire sampleErrorEntry).err = some "disk full" := by
  refine ⟨by decide,
    ((Fire_failures failingFormatterHook sampleErrorEntry).1 (by decide)).1
      "cannot format" rfl, ?_⟩
  exact (((Fire_failures failingWriterHook sampleErrorEntry).1 (by decide)).2 "oops" rfl).1

/-- The error text extractError finds is the coerced text of the "error"
field, and the empty string when the field is absent or has no text. -/
theorem extractError_fst (hook : levelWriterHook) (entry : logrus.Entry) :
    (hook.extractError entry).1 =
      match entry.Data "error" with
      | some v => (coercedText v).getD ""
      | none => "" := by
  simp only [levelWriterHook.extractError]
  cases h : entry.Data "error" with
  | none => rfl
  | some v => cases v <;> rfl

/-- The error block is the error rewrite followed by the removal of a
non-empty string stack when the hook hides stacks. -/
theorem errorBlock_eq (hook : levelWriterHook) (entry : logrus.Entry) :
    hook.errorBlock entry =
      if (hook.extractError entry).2 ≠ "" ∧ hook.showErrorStack = false then
        ({ hook.errorRewrite entry with
            Data := (hook.errorRewrite entry).Data.delete "stack" },
          some (hook.extractError entry).2)
      else (hook.errorRewrite entry, none) := rfl

/-- The error rewrite touches no key other than "error". -/
theorem errorRewrite_Data_other (hook : levelWriterHook) (entry : logrus.Entry) (k : String)
    (hk : k ≠ "error") : (hook.errorRewrite entry).Data k = entry.Data k := by
  simp only [levelWriterHook.errorRewrite]
  split_ifs <;> simp [Fields.set, Fields.delete, hk]

/-- C13, coercion of the "error" field. For an error-level entry that passes
the gate with a non-empty message m, when the "error" field holds an error, a
Stringer or a string whose text t is non-empty and different from m, the entry
handed to the formatter has "error" equal to the string t and keeps the
message m. -/
theorem Fire_error_coercion (hook : levelWriterHook) (entry : logrus.Entry) (v : Value)
    (t : String) (hlev : entry.Level = logrus.ErrorLevel) (hgate : entry.Level ≤ hook.level)
    (hm : entry.Message ≠ "") (hv : entry.Data "error" = some v)
    (ht : coercedText v = some t) (hne : t ≠ "") (hd : t ≠ entry.Message) :
    ∃ f, (hook.Fire entry).formatted = some f ∧
      f.Data "error" = some (Value.str t) ∧ f.Message = entry.Message := by
  have he : (hook.extractError entry).1 = t := by
    rw [extractError_fst, hv]
    simp [ht]
  have hd2 : entry.Message ≠ t := fun h => hd h.symm
  refine ⟨_, Fire_formatted hook entry (Nat.not_lt.mpr hgate), ?_, ?_⟩
  · simp only [levelWriterHook.beforeFormat, if_pos hlev, levelWriterHook.errorBlock, he]
    split_ifs <;> simp_all [Fields.delete, Fields.set]
  · simp only [levelWriterHook.beforeFormat, if_pos hlev, levelWriterHook.errorBlock, he]
    split_ifs <;> simp_all [Fields.delete, Fields.set]

/-- Witness for C13: a Stringer printing "something" under "error" with the
message "e1". -/
theorem Fire_error_coercion_witness :
    (stringerErrorEntry.Level = logrus.ErrorLevel ∧
      stringerErrorEntry.Level ≤ sampleFileHook.level ∧
      coercedText (Value.stringer "something") = some "something") ∧
    ∃ f, (sampleFileHook.Fire stringerErrorEntry).formatted = some f ∧
      f.Data "error" = some (Value.str "something") ∧ f.Message = stringerErrorEntry.Message :=
  ⟨⟨rfl, by decide, rfl⟩,
    Fire_error_coercion sampleFileHook stringerErrorEntry (Value.stringer "something")
      "something" rfl (by decide) (by decide) (by decide) rfl (by decide) (by decide)⟩

/-- C14 at the failing input: an error-level entry with the empty message whose
"error" field holds the integer 42, a value with no text, passes the gate of
the sample file hook and is handed to the formatter without its "error"
field. -/
theorem Fire_drops_uncoercible_error :
    intErrorEntry.Level = logrus.ErrorLevel ∧
    intErrorEntry.Level ≤ sampleFileHook.level ∧
    intErrorEntry.Message = "" ∧
    intErrorEntry.Data "error" = some (Value.other 42) ∧
    coercedText (Value.other 42) = none ∧
    (sampleFileHook.Fire intErrorEntry).formatted.map (fun f => f.Data "error") = some none := by
  decide

/-- With a non-empty message, an "error" field whose value has no text reaches
the formatter unchanged. -/
theorem Fire_keeps_uncoercible_error (hook : levelWriterHook) (entry : logrus.Entry)
    (v : Value) (hlev : entry.Level = logrus.ErrorLevel) (hgate : entry.Level ≤ hook.level)
    (hm : entry.Message ≠ "") (hv : entry.Data "error" = some v)
    (ht : coercedText v = none) :
    ∃ f, (hook.Fire entry).formatted = some f ∧ f.Data "error" = some v := by
  have he : (hook.extractError entry).1 = "" := by
    rw [extractError_fst, hv]
    simp [ht]
  refine ⟨_, Fire_formatted hook entry (Nat.not_lt.mpr hgate), ?_⟩
  simp only [levelWriterHook.beforeFormat, if_pos hlev, levelWriterHook.errorBlock, he]
  split_ifs <;> simp_all [Fields.delete, Fields.set]

/-- A non-empty stack text found by extractError is the string the "stack"
field holds. -/
theorem extractError_snd (hook : levelWriterHook) (entry : logrus.Entry)
    (h : (hook.extractError entry).2 ≠ "") :
    entry.Data "stack" = some (Value.str (hook.extractError entry).2) := by
  simp only [levelWriterHook.extractError] at h ⊢
  cases hs : entry.Data "stack" with
  | none => rw [hs] at h; exact absurd rfl h
  | some v =>
    rw [hs] at h
    cases v <;> first | rfl | exact absurd rfl h

/-- When the error block has run for an entry, the deferred function leaves
the entry as the error rewrite made it: the stack is back in place. -/
theorem runDeferred_errorBlock (hook : levelWriterHook) (entry : logrus.Entry) :
    runDeferred (hook.errorBlock entry).2 (hook.errorBlock entry).1 =
      hook.errorRewrite entry := by
  rw [errorBlock_eq]
  split_ifs with h
  · have hst := extractError_snd hook entry h.1
    have hk := errorRewrite_Data_other hook entry "stack" (by decide)
    simp only [runDeferred]
    have hdata : ((hook.errorRewrite entry).Data.delete "stack").set "stack"
        (Value.str (hook.extractError entry).2) = (hook.errorRewrite entry).Data := by
      funext k
      by_cases hks : k = "stack"
      · subst hks
        simp [Fields.set, hk, hst]
      · simp [Fields.set, Fields.delete, hks]
    rw [hdata]
  · rfl

/-- The entry Fire leaves behind: the entry itself when it is gated out or is
not of the error level, and the error rewrite of the entry otherwise. -/
theorem Fire_entry_eq (hook : levelWriterHook) (entry : logrus.Entry) :
    (hook.Fire entry).entry =
      if entry.Level > hook.level then entry
      else if entry.Level = logrus.ErrorLevel then hook.errorRewrite entry
      else entry := by
  by_cases hg : entry.Level > hook.level
  · rw [Fire_gated hook entry hg, if_pos hg]
  · rw [Fire_entry hook entry hg, if_neg hg]
    unfold levelWriterHook.beforeFormat
    split_ifs
    · exact runDeferred_errorBlock hook entry
    · rfl

/-- C18, the stack field is preserved across Fire. For every entry and every
hook, whatever its level and its flag and whether formatting and writing
succeed or fail, the "stack" field of the entry after Fire is the "stack"
field of the entry before Fire: present exactly when it was present, with the
same value. -/
theorem Fire_preserves_stack (hook : levelWriterHook) (entry : logrus.Entry) :
    (hook.Fire entry).entry.Data "stack" = entry.Data "stack" := by
  rw [Fire_entry_eq]
  split_ifs
  · rfl
  · exact errorRewrite_Data_other hook entry "stack" (by decide)
  · rfl

/-- The error rewrite does not touch the level. -/
theorem errorRewrite_Level (hook : levelWriterHook) (entry : logrus.Entry) :
    (hook.errorRewrite entry).Level = entry.Level := by
  simp only [levelWriterHook.errorRewrite]
  split_ifs <;> rfl

/-- The error rewrite by cases on the error text t found in the entry: with no
text, the "error" field is dropped when the message is empty and the entry is
left alone otherwise; with a text, the message becomes t and the "error" field
is dropped when the message is empty or equal to t, and the "error" field
becomes the string t otherwise. -/
theorem errorRewrite_cases (hook : levelWriterHook) (entry : logrus.Entry) :
    hook.errorRewrite entry =
      if (hook.extractError entry).1 = "" then
        (if entry.Message = "" then { entry with Data := entry.Data.delete "error" }
         else entry)
      else if entry.Message = "" ∨ entry.Message = (hook.extractError entry).1 then
        { Level := entry.Level, Message := (hook.extractError entry).1,
          Data := entry.Data.delete "error" }
      else
        { entry with
          Data := entry.Data.set "error" (Value.str (hook.extractError entry).1) } := by
  simp only [levelWriterHook.errorRewrite]
  generalize (hook.extractError entry).1 = t
  have hds : (entry.Data.set "error" (Value.str t)).delete "error"
      = entry.Data.delete "error" := by
    funext k
    by_cases hk : k = "error" <;> simp [Fields.set, Fields.delete, hk]
  by_cases h0 : t = ""
  · by_cases hm : entry.Message = "" <;> simp [h0, hm]
  · by_cases hm : entry.Message = ""
    · simp [h0, hm, hds]
    · by_cases hmt : entry.Message = t
      · simp [h0, hmt, hds]
      · simp [h0, hm, hmt]

/-- An entry without an "error" field has no error text. -/
theorem extractError_fst_none (hook : levelWriterHook) (x : logrus.Entry)
    (h : x.Data "error" = none) : (hook.extractError x).1 = "" := by
  rw [extractError_fst, h]

/-- An entry whose "error" field is the string t has the error text t. -/
theorem extractError_fst_str (hook : levelWriterHook) (x : logrus.Entry) (t : String)
    (h : x.Data "error" = some (Value.str t)) : (hook.extractError x).1 = t := by
  rw [extractError_fst, h]
  rfl

/-- Deleting a key twice is deleting it once. -/
theorem Fields_delete_delete (d : Fields) (k : String) :
    (d.delete k).delete k = d.delete k := by
  funext x
  by_cases hx : x = k <;> simp [Fields.delete, hx]

/-- Assigning a key twice is assigning it once. -/
theorem Fields_set_set (d : Fields) (k : String) (v : Value) :
    (d.set k v).set k v = d.set k v := by
  funext x
  by_cases hx : x = k <;> simp [Fields.set, hx]

/-- The error rewrite is idempotent, whichever hooks run it. -/
theorem errorRewrite_idem (A B : levelWriterHook) (entry : logrus.Entry) :
    B.errorRewrite (A.errorRewrite entry) = A.errorRewrite entry := by
  have hAB : (B.extractError entry).1 = (A.extractError entry).1 := rfl
  by_cases h0 : (A.extractError entry).1 = ""
  · by_cases hm : entry.Message = ""
    · have hX : A.errorRewrite entry
          = logrus.Entry.mk entry.Level entry.Message (entry.Data.delete "error") := by
        rw [errorRewrite_cases, if_pos h0, if_pos hm]
      have hx := extractError_fst_none B
        (logrus.Entry.mk entry.Level entry.Message (entry.Data.delete "error"))
        (by simp [Fields.delete])
      rw [hX, errorRewrite_cases B, if_pos hx, if_pos hm]
      simp only [Fields_delete_delete]
    · have hX : A.errorRewrite entry = entry := by
        rw [errorRewrite_cases, if_pos h0, if_neg hm]
      rw [hX, errorRewrite_cases B, hAB, if_pos h0, if_neg hm]
  · by_cases hmt : entry.Message = "" ∨ entry.Message = (A.extractError entry).1
    · have hX : A.errorRewrite entry
          = logrus.Entry.mk entry.Level (A.extractError entry).1
              (entry.Data.delete "error") := by
        rw [errorRewrite_cases, if_neg h0, if_pos hmt]
      have hx := extractError_fst_none B
        (logrus.Entry.mk entry.Level (A.extractError entry).1 (entry.Data.delete "error"))
        (by simp [Fields.delete])
      rw [hX, errorRewrite_cases B, if_pos hx, if_neg h0]
    · have hX : A.errorRewrite entry
          = logrus.Entry.mk entry.Level entry.Message
              (entry.Data.set "error" (Value.str (A.extractError entry).1)) := by
        rw [errorRewrite_cases, if_neg h0, if_neg hmt]
      have hx := extractError_fst_str B
        (logrus.Entry.mk entry.Level entry.Message
          (entry.Data.set "error" (Value.str (A.extractError entry).1)))
        (A.extractError entry).1 (by simp [Fields.set])
      rw [hX, errorRewrite_cases B, hx, if_neg h0, if_neg hmt]
      simp only [Fields_set_set]

/-- The error block of a hook gives the same result on the error rewrite of an
entry as on the entry itself. -/
theorem errorBlock_errorRewrite (A B : levelWriterHook) (entry : logrus.Entry) :
    B.errorBlock (A.errorRewrite entry) = B.errorBlock entry := by
  have hst : (B.extractError (A.errorRewrite entry)).2 = (B.extractError entry).2 := by
    simp only [levelWriterHook.extractError,
      errorRewrite_Data_other A entry "stack" (by decide)]
  have hBA : B.errorRewrite entry = A.errorRewrite entry := rfl
  rw [errorBlock_eq, errorBlock_eq, hst, errorRewrite_idem, hBA]

/-- What a hook formats, returns and writes depends on the level of the entry
and on the entry as it stands before Format only. -/
theorem Fire_congr (B : levelWriterHook) (x entry : logrus.Entry)
    (hl : x.Level = entry.Level) (hb : B.beforeFormat x = B.beforeFormat entry) :
    (B.Fire x).formatted = (B.Fire entry).formatted ∧
    (B.Fire x).err = (B.Fire entry).err ∧
    (B.Fire x).hook = (B.Fire entry).hook := by
  by_cases hg : entry.Level > B.level
  · have hgx : x.Level > B.level := by rw [hl]; exact hg
    rw [Fire_gated B x hgx, Fire_gated B entry hg]
    exact ⟨rfl, rfl, rfl⟩
  · have hgx : ¬ x.Level > B.level := by rw [hl]; exact hg
    simp only [levelWriterHook.Fire, if_neg hg, if_neg hgx, hb]
    cases hf : B.formatter (B.beforeFormat entry).1 <;> simp

/-- C17, hooks see the entry independently of the firing order. For every
entry, of the error level or not, and every two hooks A and B, what B formats,
returns and writes when A has fired first on the entry is what B formats,
returns and writes when it fires on the original entry. The error rewrite is
idempotent and what Fire leaves behind is the same after one or two calls: the
stack removal is undone before Fire returns. -/
theorem Fire_order_independent (A B : levelWriterHook) (entry : logrus.Entry) :
    (B.Fire (A.Fire entry).entry).formatted = (B.Fire entry).formatted ∧
    (B.Fire (A.Fire entry).entry).err = (B.Fire entry).err ∧
    (B.Fire (A.Fire entry).entry).hook = (B.Fire entry).hook ∧
    B.errorRewrite (A.errorRewrite entry) = A.errorRewrite entry ∧
    (A.Fire (A.Fire entry).entry).entry = (A.Fire entry).entry := by
  have hb : ∀ B : levelWriterHook,
      B.beforeFormat (A.Fire entry).entry = B.beforeFormat entry := by
    intro B
    rw [Fire_entry_eq]
    split_ifs with hg he
    · rfl
    · simp only [levelWriterHook.beforeFormat, errorRewrite_Level, he, if_true]
      exact errorBlock_errorRewrite A B entry
    · rfl
  obtain ⟨h1, h2, h3⟩ := Fire_congr B (A.Fire entry).entry entry (Fire_entry_Level A entry) (hb B)
  refine ⟨h1, h2, h3, errorRewrite_idem A B entry, ?_⟩
  rw [Fire_entry_eq A (A.Fire entry).entry, Fire_entry_Level, Fire_entry_eq A entry]
  split_ifs with hg he
  · rfl
  · exact errorRewrite_idem A A entry
  · rfl

end log
